import Mathlib

/-!
Verification of the MulensModel core against its design description.

The development shallowly embeds the Python sources:
* `causticspoint.py` — `CausticsPointWithShear._calculate` and
  `_solve_lens_equation` (critical curve and caustics of a point lens with
  external convergence `K` and shear `G`);
* `lens.py` — the `Lens` object: `q` setter/getter, `s` setter, the memoized
  `caustic` property;
* `model.py` — `Model.__init__` argument validation, the parameter setters,
  and `Model.magnification` input normalization.

Real-valued quantities are embedded as `ℝ`, complex ones as `ℂ`; Python
exceptions become explicit error values.
-/

namespace MulensSpec

/-! ### Caustics for a point lens with external mass sheet
Embedding of `CausticsPointWithShear` (`causticspoint.py`). -/

/-- Number of sampled angles: the source computes `int(n_points/4. + .5)`,
i.e. ⌊n_points/4 + 1/2⌋, which for natural `n_points` equals
`(n_points + 2) / 4` in natural-number division. -/
def nAngles (n_points : ℕ) : ℕ := (n_points + 2) / 4

/-- The `j`-th sampled angle of `np.linspace(0., 2π, n_angles, endpoint=False)`:
`2π · j / n_angles`. -/
noncomputable def phiSample (n_angles j : ℕ) : ℝ := 2 * Real.pi * j / n_angles

/-- The complex number `np.complex(cos(phi), -sin(phi))` built in the loop of
`_calculate`. -/
noncomputable def eiphi (φ : ℝ) : ℂ := ⟨Real.cos φ, -Real.sin φ⟩

/-- The principal square root `soln = sqrt(1/((1-K)*eiphi + conj(G)))` of
`_calculate`, embedded with the principal complex power `z ^ (1/2)`. -/
noncomputable def soln (K G : ℂ) (φ : ℝ) : ℂ :=
  ((1 : ℂ) / ((1 - K) * eiphi φ + (starRingEnd ℂ) G)) ^ ((1 : ℂ) / 2)

/-- The two roots `np.array([soln, -soln])` stored for one angle. -/
noncomputable def rootsAt (K G : ℂ) (φ : ℝ) : List ℂ := [soln K G φ, -soln K G φ]

/-- Embedding of `CausticsPointWithShear._solve_lens_equation`:
`(1-K)*z - G*conj(z) - 1/conj(z)`. -/
noncomputable def solveLensEquation (K G : ℂ) (z : ℂ) : ℂ :=
  (1 - K) * z - G * (starRingEnd ℂ) z - 1 / (starRingEnd ℂ) z

/-- The double loop of `_calculate`: for each sampled angle and each of its two
roots, one critical-curve point (the root) and one caustic point (its image
under the lens equation) are appended, in this order. -/
noncomputable def calculatePairs (K G : ℂ) (n_points : ℕ) : List (ℂ × ℂ) :=
  (List.range (nAngles n_points)).flatMap (fun j =>
    (rootsAt K G (phiSample (nAngles n_points) j)).map
      (fun root => (root, solveLensEquation K G root)))

/-- The critical-curve point list accumulated by `_calculate`
(`self._critical_curve.x/y`, kept here as complex points). -/
noncomputable def criticalCurve (K G : ℂ) (n_points : ℕ) : List ℂ :=
  (calculatePairs K G n_points).map Prod.fst

/-- The caustic point list accumulated by `_calculate`
(`self._x/_y`, kept here as complex points). -/
noncomputable def causticPoints (K G : ℂ) (n_points : ℕ) : List ℂ :=
  (calculatePairs K G n_points).map Prod.snd

/-! Helper lemmas about the loop structure. -/

lemma calculatePairs_eq (K G : ℂ) (n : ℕ) :
    calculatePairs K G n =
      (List.range (nAngles n)).flatMap (fun j =>
        [(soln K G (phiSample (nAngles n) j),
          solveLensEquation K G (soln K G (phiSample (nAngles n) j))),
         (-soln K G (phiSample (nAngles n) j),
          solveLensEquation K G (-soln K G (phiSample (nAngles n) j)))]) := by
  simp [calculatePairs, rootsAt]

lemma range_flatMap_pair_length {α : Type} (f g : ℕ → α) (n : ℕ) :
    ((List.range n).flatMap (fun i => [f i, g i])).length = 2 * n := by
  induction n with
  | zero => simp
  | succ m ih =>
      rw [List.range_succ, List.flatMap_append, List.length_append, ih]
      simp [Nat.mul_succ]

lemma range_flatMap_pair_getElem {α : Type} (f g : ℕ → α) (n j : ℕ) (h : j < n) :
    ((List.range n).flatMap (fun i => [f i, g i]))[2 * j]? = some (f j) ∧
    ((List.range n).flatMap (fun i => [f i, g i]))[2 * j + 1]? = some (g j) := by
  induction n with
  | zero => omega
  | succ m ih =>
      rw [List.range_succ, List.flatMap_append]
      rcases Nat.lt_succ_iff_lt_or_eq.mp h with hj | rfl
      · have hlen := range_flatMap_pair_length f g m
        have h1 : 2 * j < ((List.range m).flatMap (fun i => [f i, g i])).length := by omega
        have h2 : 2 * j + 1 < ((List.range m).flatMap (fun i => [f i, g i])).length := by omega
        rw [List.getElem?_append, List.getElem?_append]
        rw [if_pos h1, if_pos h2]
        exact ih hj
      · have hlen := range_flatMap_pair_length f g j
        rw [List.getElem?_append, List.getElem?_append]
        rw [if_neg (by omega), if_neg (by omega), hlen]
        constructor
        · have : 2 * j - 2 * j = 0 := by omega
          simp [this]
        · have : 2 * j + 1 - 2 * j = 1 := by omega
          simp [this]

lemma criticalCurve_eq (K G : ℂ) (n : ℕ) :
    criticalCurve K G n =
      (List.range (nAngles n)).flatMap (fun j =>
        [soln K G (phiSample (nAngles n) j), -soln K G (phiSample (nAngles n) j)]) := by
  rw [criticalCurve, calculatePairs_eq, List.map_flatMap]
  simp

lemma causticPoints_eq (K G : ℂ) (n : ℕ) :
    causticPoints K G n =
      (List.range (nAngles n)).flatMap (fun j =>
        [solveLensEquation K G (soln K G (phiSample (nAngles n) j)),
         solveLensEquation K G (-soln K G (phiSample (nAngles n) j))]) := by
  rw [causticPoints, calculatePairs_eq, List.map_flatMap]
  simp

lemma criticalCurve_length (K G : ℂ) (n : ℕ) :
    (criticalCurve K G n).length = 2 * nAngles n := by
  rw [criticalCurve_eq]; exact range_flatMap_pair_length _ _ _

lemma causticPoints_length (K G : ℂ) (n : ℕ) :
    (causticPoints K G n).length = 2 * nAngles n := by
  rw [causticPoints_eq]; exact range_flatMap_pair_length _ _ _

lemma eiphi_eq_exp (φ : ℝ) : eiphi φ = Complex.exp (-(φ : ℂ) * Complex.I) := by
  apply Complex.ext <;>
    simp [eiphi, Complex.exp_re, Complex.exp_im]

lemma soln_exp (K G : ℂ) (φ : ℝ) :
    soln K G φ =
      ((1 : ℂ) / ((1 - K) * Complex.exp (-(φ : ℂ) * Complex.I) + (starRingEnd ℂ) G))
        ^ ((1 : ℂ) / 2) := by
  rw [soln, eiphi_eq_exp]

lemma causticPoints_eq_map (K G : ℂ) (n : ℕ) :
    causticPoints K G n = (criticalCurve K G n).map (solveLensEquation K G) := by
  rw [causticPoints_eq, criticalCurve_eq, List.map_flatMap]
  simp

/-- C1 counterexample: with `n_points = 100` both lists have 50 entries, and 50
is not even a multiple of 4, so the total count is not the multiple of 4
nearest to the requested 100 (which is 100 itself). -/
theorem C1_counterexample :
    (criticalCurve 0 0 100).length = 50 ∧ (causticPoints 0 0 100).length = 50 ∧
    (criticalCurve 0 0 100).length ≠ 100 ∧ ¬ (4 ∣ (criticalCurve 0 0 100).length) := by
  rw [criticalCurve_length, causticPoints_length]
  refine ⟨by decide, by decide, by decide, by decide⟩

/-- C1 (amended): both lists have equal length `2 * n_angles` with
`n_angles = ⌊n_points/4 + 1/2⌋`; it is `4 * n_angles` (the combined number of
critical-curve plus caustic points) that is a multiple of 4 nearest to
`n_points`; for `n_points` = 100, 5000, 37 each list has 50, 2500, 18 points. -/
theorem C1_point_counts (K G : ℂ) (n_points : ℕ) :
    (criticalCurve K G n_points).length = 2 * nAngles n_points ∧
    (causticPoints K G n_points).length = 2 * nAngles n_points ∧
    (∀ m : ℕ, 4 ∣ m →
      ((4 * nAngles n_points : ℤ) - n_points).natAbs ≤ ((m : ℤ) - n_points).natAbs) ∧
    2 * nAngles 100 = 50 ∧ 2 * nAngles 5000 = 2500 ∧ 2 * nAngles 37 = 18 := by
  refine ⟨criticalCurve_length K G n_points, causticPoints_length K G n_points, ?_,
    by decide, by decide, by decide⟩
  intro m hm
  obtain ⟨k, rfl⟩ := hm
  unfold nAngles
  omega

/-- Witness for C1: concrete instance at `n_points = 5000`. -/
theorem C1_point_counts_witness :
    (criticalCurve 0 0 5000).length = 2 * nAngles 5000 ∧
    ((4 * nAngles 5000 : ℤ) - 5000).natAbs ≤ ((5000 : ℤ) - 5000).natAbs :=
  ⟨(C1_point_counts 0 0 5000).1,
   (C1_point_counts 0 0 5000).2.2.1 5000 (by norm_num)⟩

/-- C2 (confirmed): for every sampled angle `phi` (the `j`-th of `n_angles`
uniform samples of `[0, 2π)`, endpoint excluded), the two critical-curve
points stored for that angle are exactly
`sqrt(1/((1-K)·e^{-iφ} + conj(G)))` and its negation, at positions `2j` and
`2j+1` of the critical-curve list. -/
theorem C2_critical_roots (K G : ℂ) (n_points j : ℕ) (h : j < nAngles n_points) :
    (0 ≤ phiSample (nAngles n_points) j ∧ phiSample (nAngles n_points) j < 2 * Real.pi) ∧
    (criticalCurve K G n_points)[2 * j]? =
      some (((1 : ℂ) /
        ((1 - K) * Complex.exp (-(phiSample (nAngles n_points) j : ℂ) * Complex.I)
          + (starRingEnd ℂ) G)) ^ ((1 : ℂ) / 2)) ∧
    (criticalCurve K G n_points)[2 * j + 1]? =
      some (-(((1 : ℂ) /
        ((1 - K) * Complex.exp (-(phiSample (nAngles n_points) j : ℂ) * Complex.I)
          + (starRingEnd ℂ) G)) ^ ((1 : ℂ) / 2))) := by
  have hm : 0 < nAngles n_points := Nat.lt_of_le_of_lt (Nat.zero_le j) h
  have hmR : (0 : ℝ) < (nAngles n_points : ℝ) := by exact_mod_cast hm
  refine ⟨⟨?_, ?_⟩, ?_, ?_⟩
  · unfold phiSample; positivity
  · unfold phiSample
    rw [div_lt_iff₀ hmR]
    have hπ : (0 : ℝ) < 2 * Real.pi := by positivity
    have hj : (j : ℝ) < (nAngles n_points : ℝ) := by exact_mod_cast h
    calc 2 * Real.pi * (j : ℝ) < 2 * Real.pi * (nAngles n_points : ℝ) :=
          (mul_lt_mul_left hπ).mpr hj
      _ = 2 * Real.pi * (nAngles n_points : ℝ) := rfl
  · rw [criticalCurve_eq]
    rw [(range_flatMap_pair_getElem
      (fun i => soln K G (phiSample (nAngles n_points) i))
      (fun i => -soln K G (phiSample (nAngles n_points) i)) _ j h).1]
    rw [soln_exp]
  · rw [criticalCurve_eq]
    rw [(range_flatMap_pair_getElem
      (fun i => soln K G (phiSample (nAngles n_points) i))
      (fun i => -soln K G (phiSample (nAngles n_points) i)) _ j h).2]
    rw [soln_exp]

/-- Witness for C2: concrete instance at `K = 0`, `G = 0`, `n_points = 5000`,
`j = 3`. -/
theorem C2_critical_roots_witness :
    0 ≤ phiSample (nAngles 5000) 3 ∧ phiSample (nAngles 5000) 3 < 2 * Real.pi :=
  (C2_critical_roots 0 0 5000 3 (by decide)).1

/-- C3 (confirmed): the caustic list has the same length as the critical-curve
list, and entry `i` of the caustic list is exactly the image
`(1-K)·z − G·conj(z) − 1/conj(z)` of entry `i` of the critical-curve list, so
the angular sampling order is preserved index by index. -/
theorem C3_lens_mapping (K G : ℂ) (n_points i : ℕ) :
    (causticPoints K G n_points).length = (criticalCurve K G n_points).length ∧
    (causticPoints K G n_points)[i]? =
      ((criticalCurve K G n_points)[i]?).map
        (fun z => (1 - K) * z - G * (starRingEnd ℂ) z - 1 / (starRingEnd ℂ) z) := by
  constructor
  · rw [causticPoints_length, criticalCurve_length]
  · rw [causticPoints_eq_map, List.getElem?_map]
    rfl

/-! ### The Lens object (`lens.py`): cached caustics and the q property -/

/-- The value produced by the caustic computation, represented by the defining
data it depends on: the mass fractions and the separation. -/
abbrev CausticData : Type := List ℝ × Option ℝ

/-- State of a `Lens` object: the `_epsilon` mass-fraction array, the `_s`
separation, the `_total_mass`, and the `_caustic` memo slot (each `Option`
models a possibly unset Python attribute). `computeCount` is a ghost counter
recording how many times the caustic structure has been computed. -/
structure Lens where
  epsilon : List ℝ
  s : Option ℝ
  totalMass : Option ℝ
  caustic : Option CausticData
  computeCount : ℕ

/-- Modelled from the spec: the body of `Lens._calculate_caustics` is a stub
(`pass`) in the sources; per the design description the caustic structure is
determined by the mass ratio and separation, so it is modelled abstractly by
the defining pair (mass fractions, separation). -/
def calculateCaustics (l : Lens) : CausticData := (l.epsilon, l.s)

/-- Embedding of the `Lens.caustic` property: if `_caustic` is unset, compute
and store it, then return the stored value. -/
def causticGet (l : Lens) : CausticData × Lens :=
  match l.caustic with
  | some c => (c, l)
  | none =>
      let c := calculateCaustics l
      (c, { l with caustic := some c, computeCount := l.computeCount + 1 })

/-- Embedding of the `Lens.q` setter for argument `new_q` (a scalar argument is
a one-element list): prepend 1 (`np.insert(new_q, 0, 1.)`), normalize by the
sum; if `_total_mass` exists it is rescaled (the size test in the source
compares `new_q` after the prepend with `epsilon.size - 1`, which never
matches, so the multiply branch always runs); the caustic memo slot is left
untouched. -/
noncomputable def qSet (l : Lens) (new_q : List ℝ) : Lens :=
  let nq : List ℝ := 1 :: new_q
  let eps := nq.map (fun x => x / nq.sum)
  match l.totalMass with
  | none => { l with epsilon := eps }
  | some tm =>
      if nq.length = eps.length - 1 then { l with epsilon := eps }
      else { l with epsilon := eps, totalMass := some (tm * nq.sum) }

/-- Embedding of the `Lens.s` setter: stores the value; the caustic memo slot
is left untouched. -/
def sSet (l : Lens) (new_s : ℝ) : Lens := { l with s := some new_s }

/-- Embedding of the `Lens.q` getter: for more than one body return
`epsilon[1:] / epsilon[0]`, otherwise raise (`Lens has only one body`). -/
noncomputable def qGet (l : Lens) : Except String (List ℝ) :=
  if 1 < l.epsilon.length then
    Except.ok ((l.epsilon.drop 1).map (fun e => e / l.epsilon.headI))
  else Except.error "Lens has only one body"

/-- Embedding of `Lens.__init__` for the `(q, s)` parameter combination: the
memo slot starts unset, then the `q` setter and the `s` setter run (`mass_1`
and `total_mass` are not given). -/
noncomputable def lensInitQS (q : List ℝ) (s : ℝ) : Lens :=
  sSet (qSet { epsilon := [], s := none, totalMass := none,
               caustic := none, computeCount := 0 } q) s

/-- Embedding of `Lens.__init__` for a single mass: `_set_single_mass` sets
`epsilon = [1.0]`. -/
noncomputable def lensInitMass (m : ℝ) : Lens :=
  { epsilon := [1.0], s := none, totalMass := some m,
    caustic := none, computeCount := 0 }

lemma qSet_caustic (l : Lens) (q' : List ℝ) : (qSet l q').caustic = l.caustic := by
  unfold qSet
  cases l.totalMass with
  | none => rfl
  | some tm =>
      dsimp only
      split <;> rfl

lemma sSet_caustic (l : Lens) (s' : ℝ) : (sSet l s').caustic = l.caustic := rfl

lemma causticGet_of_some (l : Lens) (c : CausticData) (h : l.caustic = some c) :
    causticGet l = (c, l) := by
  unfold causticGet
  rw [h]

/-- C4 counterexample: build a lens with `q = 1/2`, `s = 1`, access the caustic
once, then change `q` to `1/4`; the next access still returns the structure
cached for the old parameters, not the one the current parameters determine. -/
theorem C4_counterexample :
    (causticGet (qSet (causticGet (lensInitQS [1/2] 1)).2 [1/4])).1 ≠
      calculateCaustics (qSet (causticGet (lensInitQS [1/2] 1)).2 [1/4]) := by
  simp only [lensInitQS, qSet, sSet, causticGet, calculateCaustics, List.sum_cons,
    List.sum_nil, List.map_cons, List.map_nil, ne_eq, Prod.mk.injEq, List.cons.injEq]
  norm_num

/-- C4 (amended): the caustic property is memoized — the first access computes
the structure once and stores it, a second access returns the identical cached
value with no recomputation — but changing `q` (or `s`) afterwards does not
invalidate the cache: subsequent accesses still return the originally cached
value. -/
theorem C4_caustic_memoization (l : Lens) (h : l.caustic = none) :
    (causticGet l).1 = calculateCaustics l ∧
    (causticGet l).2.computeCount = l.computeCount + 1 ∧
    causticGet (causticGet l).2 = ((causticGet l).1, (causticGet l).2) ∧
    (∀ q' : List ℝ, causticGet (qSet (causticGet l).2 q') =
        ((causticGet l).1, qSet (causticGet l).2 q')) ∧
    (∀ s' : ℝ, causticGet (sSet (causticGet l).2 s') =
        ((causticGet l).1, sSet (causticGet l).2 s')) := by
  have hstep : causticGet l =
      (calculateCaustics l,
       { l with caustic := some (calculateCaustics l),
                computeCount := l.computeCount + 1 }) := by
    unfold causticGet
    rw [h]
  rw [hstep]
  refine ⟨rfl, rfl, causticGet_of_some _ _ rfl, fun q' => ?_, fun s' => ?_⟩
  · exact causticGet_of_some _ _ (by rw [qSet_caustic])
  · exact causticGet_of_some _ _ (by rw [sSet_caustic])

/-- Witness for C4: the memoization facts at the concrete lens `q = 1/2`,
`s = 1`. -/
theorem C4_caustic_memoization_witness :
    (causticGet (lensInitQS [1/2] 1)).1 = calculateCaustics (lensInitQS [1/2] 1) ∧
    (causticGet (lensInitQS [1/2] 1)).2.computeCount =
      (lensInitQS [1/2] 1).computeCount + 1 :=
  ⟨(C4_caustic_memoization (lensInitQS [1/2] 1) rfl).1,
   (C4_caustic_memoization (lensInitQS [1/2] 1) rfl).2.1⟩

/-- C9 (confirmed): a lens constructed with a positive scalar mass ratio `q`
and separation `s` reads back exactly `q` from the `q` property (the
normalized fractions satisfy `epsilon[1:]/epsilon[0] = q`), while a
single-body lens raises instead of returning a value. -/
theorem C9_q_roundtrip (q s : ℝ) (h : 0 < q) :
    qGet (lensInitQS [q] s) = Except.ok [q] ∧
    (∀ m : ℝ, qGet (lensInitMass m) = Except.error "Lens has only one body") := by
  constructor
  · have hsum : (1 : ℝ) + (q + 0) ≠ 0 := by positivity
    simp only [lensInitQS, qSet, sSet, qGet, List.sum_cons, List.sum_nil,
      List.map_cons, List.map_nil, List.length_cons, List.length_nil,
      List.drop_succ_cons, List.drop_zero, List.headI]
    norm_num
    field_simp
  · intro m
    simp [qGet, lensInitMass]

/-- Witness for C9: concrete instance at `q = 1/2`, `s = 1`. -/
theorem C9_q_roundtrip_witness :
    qGet (lensInitQS [1/2] 1) = Except.ok [1/2] :=
  (C9_q_roundtrip (1/2) 1 (by norm_num)).1

/-! ### The Model object (`model.py`): construction and validation -/

/-- Error kinds of the design description. The source raises Python exception
classes: `AttributeError` on inconsistent parameters maps to
`invalidParameter`, `NotImplementedError` (more than 2 bodies) to
`unsupportedConfiguration`, `TypeError` to `typeError`, and the `IndexError`
produced by `q[0]` on an empty sequence to `indexError`. -/
inductive ModelError : Type
  | invalidParameter
  | unsupportedConfiguration
  | typeError
  | indexError
deriving DecidableEq

/-- Modelled from the spec: `ModelParameters` (the LensParameters value
object), whose own module is not among the sources, is a plain holder of the
defining fields; attribute assignment stores the value. -/
structure ModelParameters where
  t_0 : Option ℝ
  u_0 : Option ℝ
  t_E : Option ℝ
  rho : Option ℝ
  s : Option ℝ
  q : Option ℝ
  alpha : Option ℝ
  pi_E_N : Option ℝ
  pi_E_E : Option ℝ

/-- State of a `Model` object relevant to the claims: its parameters. -/
structure Model where
  parameters : ModelParameters

/-- The `q` argument of `Model.__init__`: either a scalar or a sequence
(`list` / `np.ndarray`). -/
inductive QArg : Type
  | scalar (x : ℝ)
  | list (l : List ℝ)

/-- The part of `Model.__init__` after the `q` normalization: the
`(s, q, alpha)` consistency check (lines 102–105), then the
`pi_E_N`/`pi_E_E` pairing check, then the constructed model. `qGiven` records
whether the `q` argument was supplied (the source tests the original argument
against `None`). -/
def modelInitChecked (t_0 u_0 t_E rho s qVal : Option ℝ) (qGiven : Bool)
    (alpha pi_E_N pi_E_E : Option ℝ) : Except ModelError Model :=
  if (s.isSome || qGiven || alpha.isSome) && !(s.isSome && qGiven && alpha.isSome) then
    Except.error ModelError.invalidParameter
  else if pi_E_N.isSome && !pi_E_E.isSome then
    Except.error ModelError.invalidParameter
  else if !pi_E_N.isSome && pi_E_E.isSome then
    Except.error ModelError.invalidParameter
  else
    Except.ok { parameters :=
      { t_0 := t_0, u_0 := u_0, t_E := t_E, rho := rho, s := s,
        q := qVal, alpha := alpha, pi_E_N := pi_E_N, pi_E_E := pi_E_E } }

/-- Embedding of `Model.__init__` (the way-2, field-by-field form): a sequence
`q` of more than one element raises `NotImplementedError`, a sequence of
exactly one element is replaced by `q[0]`, then the consistency checks run. -/
def modelInit (t_0 u_0 t_E rho s : Option ℝ) (q : Option QArg)
    (alpha pi_E_N pi_E_E : Option ℝ) : Except ModelError Model :=
  match q with
  | none => modelInitChecked t_0 u_0 t_E rho s none false alpha pi_E_N pi_E_E
  | some (QArg.scalar x) =>
      modelInitChecked t_0 u_0 t_E rho s (some x) true alpha pi_E_N pi_E_E
  | some (QArg.list l) =>
      if l.length > 1 then Except.error ModelError.unsupportedConfiguration
      else
        match l with
        | [] => Except.error ModelError.indexError
        | x :: _ => modelInitChecked t_0 u_0 t_E rho s (some x) true alpha pi_E_N pi_E_E

/-- Embedding of the `Model.t_0` setter: `self._parameters.t_0 = value`. -/
def Model.setT0 (m : Model) (v : ℝ) : Model :=
  { m with parameters := { m.parameters with t_0 := some v } }

/-- Embedding of the `Model.u_0` setter: `self._parameters._u_0 = value`. -/
def Model.setU0 (m : Model) (v : ℝ) : Model :=
  { m with parameters := { m.parameters with u_0 := some v } }

/-- Embedding of `Model.set_parameters`: builds a brand-new parameters object
from the given arguments (defaults `t_0 = 0.`, `t_E = 1.`), forgetting all
previously set parameters. -/
def Model.setParameters (m : Model) (t_0 : ℝ) (u_0 : Option ℝ) (t_E : ℝ)
    (rho s q alpha pi_E_N pi_E_E : Option ℝ) : Model :=
  { m with parameters :=
    { t_0 := some t_0, u_0 := u_0, t_E := some t_E, rho := rho, s := s,
      q := q, alpha := alpha, pi_E_N := pi_E_N, pi_E_E := pi_E_E } }

/-- A model as built by `Model.__init__` with only `t_0 = 1` given. -/
def builtModel : Model :=
  { parameters :=
    { t_0 := some 1, u_0 := none, t_E := none, rho := none, s := none,
      q := none, alpha := none, pi_E_N := none, pi_E_E := none } }

/-- C5 counterexample: a model built with `t_0 = 1` has its defining field
`t_0` changed to 2 by the public `t_0` setter, so the parameters object is not
immutable after construction. -/
theorem C5_counterexample :
    modelInit (some 1) none none none none none none none none =
      Except.ok builtModel ∧
    (builtModel.setT0 2).parameters.t_0 = some 2 ∧
    builtModel.parameters.t_0 = some 1 ∧
    (builtModel.setT0 2).parameters.t_0 ≠ builtModel.parameters.t_0 := by
  refine ⟨rfl, rfl, rfl, ?_⟩
  simp [Model.setT0, builtModel]

/-- C5 (amended): the parameters object is mutable after construction —
Model's public setters overwrite the defining fields (`t_0`, `u_0`, …) in
place, and `set_parameters` replaces the whole parameters object with a fresh
one built from its arguments. -/
theorem C5_parameters_mutable (m : Model) (v : ℝ) :
    (m.setT0 v).parameters.t_0 = some v ∧
    (m.setU0 v).parameters.u_0 = some v ∧
    (∀ (t_0 t_E : ℝ) (u_0 rho s q alpha pi_E_N pi_E_E : Option ℝ),
      (m.setParameters t_0 u_0 t_E rho s q alpha pi_E_N pi_E_E).parameters =
        { t_0 := some t_0, u_0 := u_0, t_E := some t_E, rho := rho, s := s,
          q := q, alpha := alpha, pi_E_N := pi_E_N, pi_E_E := pi_E_E }) :=
  ⟨rfl, rfl, fun _ _ _ _ _ _ _ _ _ => rfl⟩

/-- C6 (confirmed): with every other argument absent, construction fails with
`InvalidParameter` exactly when some but not all of `(s, q, alpha)` are set;
in particular when all three or none are set this error is not raised. -/
theorem C6_sqalpha_validation (s q alpha : Option ℝ) :
    modelInit none none none none s (q.map QArg.scalar) alpha none none =
        Except.error ModelError.invalidParameter ↔
      ((s.isSome ∨ q.isSome ∨ alpha.isSome) ∧
        ¬(s.isSome ∧ q.isSome ∧ alpha.isSome)) := by
  cases s <;> cases q <;> cases alpha <;>
    simp [modelInit, modelInitChecked]

/-- C7 (confirmed): a `q` sequence of more than one element fails with
`UnsupportedConfiguration`; a one-element sequence is accepted and the model
stores its single element as the mass ratio. -/
theorem C7_q_sequence (l : List ℝ) (x s0 a0 : ℝ) (h : l.length > 1) :
    modelInit none none none none (some s0) (some (QArg.list l)) (some a0) none none =
      Except.error ModelError.unsupportedConfiguration ∧
    modelInit none none none none (some s0) (some (QArg.list [x])) (some a0) none none =
      Except.ok { parameters :=
        { t_0 := none, u_0 := none, t_E := none, rho := none, s := some s0,
          q := some x, alpha := some a0, pi_E_N := none, pi_E_E := none } } := by
  constructor
  · simp only [modelInit]
    rw [if_pos h]
  · rfl

/-- Witness for C7: a two-element sequence is rejected, a one-element sequence
is accepted. -/
theorem C7_q_sequence_witness :
    modelInit none none none none (some 1) (some (QArg.list [1, 2])) (some 0) none none =
      Except.error ModelError.unsupportedConfiguration ∧
    modelInit none none none none (some 1) (some (QArg.list [3])) (some 0) none none =
      Except.ok { parameters :=
        { t_0 := none, u_0 := none, t_E := none, rho := none, s := some 1,
          q := some 3, alpha := some 0, pi_E_N := none, pi_E_E := none } } :=
  ⟨(C7_q_sequence [1, 2] 3 1 0 (by norm_num)).1,
   (C7_q_sequence [1, 2] 3 1 0 (by norm_num)).2⟩

/-! ### `Model.magnification` input normalization -/

/-- The `time` argument of `Model.magnification`: a numpy array, a float, a
list, or anything else (represented by a description string). -/
inductive PyTimeArg : Type
  | ndarray (a : List ℝ)
  | float (x : ℝ)
  | list (l : List ℝ)
  | other (descr : String)

/-- The type dispatch at the top of `Model.magnification`: an ndarray passes
through, a float becomes a one-element array, a list becomes an array, and
anything else raises `TypeError` before any computation. -/
def normalizeTime : PyTimeArg → Except ModelError (List ℝ)
  | PyTimeArg.ndarray a => Except.ok a
  | PyTimeArg.float x => Except.ok [x]
  | PyTimeArg.list l => Except.ok l
  | PyTimeArg.other _ => Except.error ModelError.typeError

/-- Modelled from the spec: the magnification computation downstream of the
input normalization (`MagnificationCurve`, whose module is not among the
sources) produces exactly one magnification value per time sample; the
per-sample value is abstracted as a function `magAt`. -/
def magnificationFromCurve (magAt : ℝ → ℝ) (times : List ℝ) : List ℝ :=
  times.map magAt

/-- Embedding of `Model.magnification`: normalize the time argument, then
delegate to the magnification curve. -/
def modelMagnification (magAt : ℝ → ℝ) (time : PyTimeArg) :
    Except ModelError (List ℝ) :=
  (normalizeTime time).map (magnificationFromCurve magAt)

/-- C10 (confirmed): a float time yields a length-1 magnification array, a
list is converted and yields one value per entry, an ndarray passes through,
and any other argument fails with `TypeError` for every downstream
magnification function — i.e. before any computation. -/
theorem C10_time_normalization (magAt : ℝ → ℝ) (x : ℝ) (l a : List ℝ) (d : String) :
    modelMagnification magAt (PyTimeArg.float x) = Except.ok [magAt x] ∧
    [magAt x].length = 1 ∧
    modelMagnification magAt (PyTimeArg.list l) = Except.ok (l.map magAt) ∧
    modelMagnification magAt (PyTimeArg.ndarray a) = Except.ok (a.map magAt) ∧
    modelMagnification magAt (PyTimeArg.other d) = Except.error ModelError.typeError :=
  ⟨rfl, rfl, rfl, rfl, rfl⟩

/-! ### Point-source point-lens magnification -/

/-- The denominator `u * sqrt(u² + 4)` of the point-lens magnification. -/
noncomputable def pointLensDenom (u : ℝ) : ℝ := u * Real.sqrt (u ^ 2 + 4)

/-- Modelled from the spec: the point-source point-lens magnification
`A(u) = (u² + 2) / (u · sqrt(u² + 4))` — the default magnification method of
`MagnificationCurve`, whose module is not among the sources. -/
noncomputable def pointLensMagnification (u : ℝ) : ℝ :=
  (u ^ 2 + 2) / pointLensDenom u

/-- C8 (confirmed): the point-lens magnification is strictly decreasing on
`u > 0`, tends to 1 as `u → ∞`, and its denominator vanishes at `u = 0`, so
the formula is a division by zero there and must be guarded. -/
theorem C8_point_lens (a b : ℝ) (ha : 0 < a) (hab : a < b) :
    pointLensMagnification b < pointLensMagnification a ∧
    Filter.Tendsto pointLensMagnification Filter.atTop (nhds 1) ∧
    pointLensDenom 0 = 0 := by
  refine ⟨?_, ?_, by simp [pointLensDenom]⟩
  · have hb : 0 < b := ha.trans hab
    have hA4 : (0 : ℝ) ≤ a ^ 2 + 4 := by positivity
    have hB4 : (0 : ℝ) ≤ b ^ 2 + 4 := by positivity
    have ea : Real.sqrt (a ^ 2 + 4) ^ 2 = a ^ 2 + 4 := Real.sq_sqrt hA4
    have eb : Real.sqrt (b ^ 2 + 4) ^ 2 = b ^ 2 + 4 := Real.sq_sqrt hB4
    have hsa : 0 < Real.sqrt (a ^ 2 + 4) := Real.sqrt_pos.mpr (by positivity)
    have hsb : 0 < Real.sqrt (b ^ 2 + 4) := Real.sqrt_pos.mpr (by positivity)
    unfold pointLensMagnification pointLensDenom
    rw [div_lt_div_iff₀ (by positivity) (by positivity)]
    have hy : (0 : ℝ) ≤ (a ^ 2 + 2) * (b * Real.sqrt (b ^ 2 + 4)) := by positivity
    apply lt_of_pow_lt_pow_left₀ 2 hy
    have expand_a : ((b ^ 2 + 2) * (a * Real.sqrt (a ^ 2 + 4))) ^ 2 =
        (b ^ 2 + 2) ^ 2 * a ^ 2 * (a ^ 2 + 4) := by
      rw [mul_pow, mul_pow, ea]; ring
    have expand_b : ((a ^ 2 + 2) * (b * Real.sqrt (b ^ 2 + 4))) ^ 2 =
        (a ^ 2 + 2) ^ 2 * b ^ 2 * (b ^ 2 + 4) := by
      rw [mul_pow, mul_pow, eb]; ring
    rw [expand_a, expand_b]
    have h1 : 0 < b ^ 2 - a ^ 2 := by nlinarith
    have h2 : (0 : ℝ) < a ^ 2 + b ^ 2 + 4 := by positivity
    nlinarith [mul_pos (mul_pos (show (0:ℝ) < 4 by norm_num) h1) h2]
  · have hev : pointLensMagnification =ᶠ[Filter.atTop]
        (fun u => Real.sqrt (1 + 4 / (u ^ 4 + 4 * u ^ 2))) := by
      filter_upwards [Filter.eventually_gt_atTop (0 : ℝ)] with u hu
      have hd4 : (0 : ℝ) < u ^ 4 + 4 * u ^ 2 := by positivity
      have hApos : 0 < pointLensMagnification u := by
        unfold pointLensMagnification pointLensDenom
        positivity
      have hsq : pointLensMagnification u ^ 2 = 1 + 4 / (u ^ 4 + 4 * u ^ 2) := by
        unfold pointLensMagnification pointLensDenom
        rw [div_pow, mul_pow, Real.sq_sqrt (by positivity : (0:ℝ) ≤ u ^ 2 + 4)]
        field_simp
        ring
      calc pointLensMagnification u
          = Real.sqrt (pointLensMagnification u ^ 2) := (Real.sqrt_sq hApos.le).symm
        _ = Real.sqrt (1 + 4 / (u ^ 4 + 4 * u ^ 2)) := by rw [hsq]
    have hden : Filter.Tendsto (fun u : ℝ => u ^ 4 + 4 * u ^ 2)
        Filter.atTop Filter.atTop := by
      apply Filter.tendsto_atTop_add
      · exact Filter.tendsto_pow_atTop (by norm_num)
      · exact (Filter.tendsto_pow_atTop (by norm_num)).const_mul_atTop (by norm_num)
    have hfrac : Filter.Tendsto (fun u : ℝ => 4 / (u ^ 4 + 4 * u ^ 2))
        Filter.atTop (nhds 0) := Filter.Tendsto.div_atTop tendsto_const_nhds hden
    have hsum : Filter.Tendsto (fun u : ℝ => 1 + 4 / (u ^ 4 + 4 * u ^ 2))
        Filter.atTop (nhds 1) := by
      have := hfrac.const_add (1 : ℝ)
      simpa using this
    have hsqrt : Filter.Tendsto (fun u : ℝ => Real.sqrt (1 + 4 / (u ^ 4 + 4 * u ^ 2)))
        Filter.atTop (nhds 1) := by
      have hc := (Real.continuous_sqrt.tendsto (1 : ℝ)).comp hsum
      simpa using hc
    exact Filter.Tendsto.congr' hev.symm hsqrt

/-- Witness for C8: the strict decrease at `a = 1`, `b = 2`, and the vanishing
denominator at `u = 0`. -/
theorem C8_point_lens_witness :
    pointLensMagnification 2 < pointLensMagnification 1 ∧ pointLensDenom 0 = 0 :=
  ⟨(C8_point_lens 1 2 (by norm_num) (by norm_num)).1,
   (C8_point_lens 1 2 (by norm_num) (by norm_num)).2.2⟩

end MulensSpec
